import Mathlib

/-!
# Neon Defense — verification of the simulation loop and wave generator

Shallow embedding of the tower-defense game in this repository
(`src/components/UIOverlay.tsx` (GameCanvas component), `src/App.tsx`,
`src/services/geminiService.ts`, `src/constants.ts`, `src/types.ts`).

Modelling conventions:
* JavaScript numbers are modelled as exact rationals.  To keep every
  definition evaluable by the kernel, rationals are carried as normalized
  integer fractions (`Q` below); `Q.val` maps them to Mathlib's `ℚ` and the
  lemmas `Q.val_add`, `Q.lt_iff_val`, ... connect the executable operations
  with rational arithmetic.  Every concrete scenario below uses values
  (halves, small integers) on which binary floating point is exact, so no
  verdict depends on floating-point rounding.
* `Math.sqrt` is modelled by `ratSqrt`, an exact rational square root.  The
  waypoint path is axis-aligned, so every displacement whose square root the
  simulation takes in the scenarios below has a zero component, making the
  argument a perfect square of a rational, on which `ratSqrt` agrees with
  the real square root.
* `Math.random` is used by the source only to mint entity identifiers and to
  pick cosmetic particle velocities/lifetimes.  Identifiers are modelled by a
  fresh counter (`nextId`), capturing the source's intent of unique ids;
  particle samples are drawn from an ambient stream (`rand`), exhausted to
  `0`.
* React's `setGameState(prev => ...)` functional updates are queued and all
  applied before the next animation frame runs; the embedding applies them
  in order inside the step, which is observationally identical because the
  frame callback reads `money`, `lives` and the two flags only at its start.
-/

namespace NeonDefense

/-! ## Exact machine numbers -/

/-- A machine number: an integer fraction.  All operations return a
normalized fraction with positive denominator. -/
structure Q where
  num : ℤ
  den : ℤ
deriving DecidableEq, Repr

/-- Normalize a fraction: positive denominator, coprime entries.  The
denominator-zero case never arises on executed paths (the source never
divides by zero where a result is consumed). -/
def Q.norm (n d : ℤ) : Q :=
  if d = 0 then ⟨0, 1⟩
  else
    let s : ℤ := if d < 0 then -1 else 1
    let g : ℤ := (Int.gcd n d : ℤ)
    ⟨s * n / g, s * d / g⟩

def Q.add (a b : Q) : Q := Q.norm (a.num * b.den + b.num * a.den) (a.den * b.den)

def Q.sub (a b : Q) : Q := Q.norm (a.num * b.den - b.num * a.den) (a.den * b.den)

def Q.mul (a b : Q) : Q := Q.norm (a.num * b.num) (a.den * b.den)

def Q.div (a b : Q) : Q := Q.norm (a.num * b.den) (a.den * b.num)

instance : Add Q := ⟨Q.add⟩

instance : Sub Q := ⟨Q.sub⟩

instance : Mul Q := ⟨Q.mul⟩

instance : Div Q := ⟨Q.div⟩

instance : Neg Q := ⟨fun a => ⟨-a.num, a.den⟩⟩

instance (n : ℕ) : OfNat Q n := ⟨⟨n, 1⟩⟩

instance : NatCast Q := ⟨fun n => ⟨n, 1⟩⟩

instance : IntCast Q := ⟨fun z => ⟨z, 1⟩⟩

/-- Comparison of fractions by cross multiplication (valid for the positive
denominators every executed operation maintains). -/
instance : LT Q := ⟨fun a b => a.num * b.den < b.num * a.den⟩

instance : LE Q := ⟨fun a b => a.num * b.den ≤ b.num * a.den⟩

instance : DecidableRel ((· < ·) : Q → Q → Prop) :=
  fun a b => inferInstanceAs (Decidable (a.num * b.den < b.num * a.den))

instance : DecidableRel ((· ≤ ·) : Q → Q → Prop) :=
  fun a b => inferInstanceAs (Decidable (a.num * b.den ≤ b.num * a.den))

/-- `Math.max`. -/
def Q.max (a b : Q) : Q := if a < b then b else a

/-- `Math.min`. -/
def Q.min (a b : Q) : Q := if a < b then a else b

/-- `Math.floor` (for the positive denominators maintained by every
operation, Euclidean division of `num` by `den` is the floor). -/
def Q.floor (a : Q) : ℤ := a.num / a.den

/-- Integer square root by Newton iteration; the fuel is ample for every
number that can arise here, and the recursion stops as soon as the iteration
converges. -/
def isqrtAux : ℕ → ℕ → ℕ → ℕ
  | 0, _, g => g
  | fuel + 1, n, g =>
    let g2 := (g + n / g) / 2
    if g2 < g then isqrtAux fuel n g2 else g

/-- Floor of the square root of a natural number. -/
def isqrt (n : ℕ) : ℕ := if n ≤ 1 then n else isqrtAux 128 n (n / 2 + 1)

/-- Exact rational square root, modelling `Math.sqrt`.  On a nonnegative
normalized fraction that is the square of a rational (the only arguments
produced by the axis-aligned waypoint geometry in the scenarios below) it
equals the real square root. -/
def ratSqrt (q : Q) : Q := ⟨(isqrt q.num.toNat : ℤ), (isqrt q.den.toNat : ℤ)⟩

/-- Interpretation of a machine number as a rational. -/
def Q.val (q : Q) : ℚ := (q.num : ℚ) / (q.den : ℚ)

/-! ## `src/types.ts` — enumerations and configuration records -/

/-- `EnemyType` from `src/types.ts`. -/
inductive EnemyType where
  | SCOUT
  | grunt
  | TANK
  | BOSS
deriving DecidableEq, Repr

/-- `TowerType` from `src/types.ts`. -/
inductive TowerType where
  | BLASTER
  | CANNON
  | SNIPER
  | SLOW
deriving DecidableEq, Repr

/-- `Vector2D` from `src/types.ts`. -/
structure Vector2D where
  x : Q
  y : Q
deriving DecidableEq, Repr

/-- `EnemyConfig` from `src/types.ts`. -/
structure EnemyConfig where
  speed : Q
  hp : Q
  bounty : Q
  color : String
  radius : Q
deriving DecidableEq, Repr

/-- `TowerConfig` from `src/types.ts`. -/
structure TowerConfig where
  name : String
  range : Q
  damage : Q
  cooldown : ℤ
  cost : Q
  color : String
  description : String
deriving DecidableEq, Repr

/-! ## `src/constants.ts` -/

def GRID_SIZE : Q := 40

def CANVAS_WIDTH : Q := 800

def CANVAS_HEIGHT : Q := 600

def FPS : Q := 60

/-- `PATH_WAYPOINTS` from `src/constants.ts`: grid points scaled by
`p * GRID_SIZE + GRID_SIZE / 2`. -/
def PATH_WAYPOINTS : List Vector2D :=
  ([⟨0, 2⟩, ⟨5, 2⟩, ⟨5, 8⟩, ⟨12, 8⟩, ⟨12, 4⟩, ⟨18, 4⟩, ⟨18, 10⟩, ⟨8, 10⟩,
    ⟨8, 13⟩, ⟨20, 13⟩] : List Vector2D).map
    (fun p => ⟨p.x * GRID_SIZE + GRID_SIZE / 2, p.y * GRID_SIZE + GRID_SIZE / 2⟩)

/-- `ENEMY_STATS` from `src/constants.ts` (speeds `2.5`, `1.5`, `0.8`,
`0.4`). -/
def ENEMY_STATS : EnemyType → EnemyConfig
  | .SCOUT => ⟨⟨5, 2⟩, 30, 5, "#facc15", 8⟩
  | .grunt => ⟨⟨3, 2⟩, 80, 10, "#f87171", 12⟩
  | .TANK => ⟨⟨4, 5⟩, 300, 30, "#a855f7", 16⟩
  | .BOSS => ⟨⟨2, 5⟩, 2000, 200, "#ef4444", 24⟩

/-- `TOWER_STATS` from `src/constants.ts`. -/
def TOWER_STATS : TowerType → TowerConfig
  | .BLASTER =>
      ⟨"Pulse Turret", 120, 15, 20, 50, "#38bdf8",
        "Rapid fire, single target energy weapon."⟩
  | .SNIPER =>
      ⟨"Railgun", 250, 100, 90, 150, "#84cc16",
        "Long range, high damage, slow reload."⟩
  | .CANNON =>
      ⟨"Plasma Mortar", 150, 40, 60, 200, "#f97316",
        "Deals splash damage to grouped enemies."⟩
  | .SLOW =>
      ⟨"Stasis Field", 100, 2, 10, 120, "#6366f1",
        "Slows down nearby enemies."⟩

def INITIAL_MONEY : Q := 120

def INITIAL_LIVES : ℤ := 20

/-! ## Wave compositions (`src/types.ts` `WaveComposition`) -/

/-- One entry of `WaveComposition.enemies`. -/
structure SpawnGroup where
  type : EnemyType
  count : ℤ
  interval : Q
  hpMultiplier : Q
deriving DecidableEq, Repr

/-- `WaveComposition` from `src/types.ts`. -/
structure WaveComposition where
  enemies : List SpawnGroup
  briefing : String
deriving DecidableEq, Repr

/-! ## `src/services/geminiService.ts` -/

/-- `getApiKey` from `src/services/geminiService.ts`: returns the configured
`process.env.API_KEY` (modelled as an `Option String` environment) when it is
present, truthy and not only whitespace, and `none` otherwise.  The
`try/catch` around the `process` access never produces a key, so it is
subsumed by the `none` case. -/
def getApiKey (env : Option String) : Option String :=
  match env with
  | none => none
  | some key => if 0 < key.trim.length then some key else none

/-- `isAIOnline` from `src/services/geminiService.ts`. -/
def isAIOnline (env : Option String) : Bool :=
  (getApiKey env).isSome

/-- `generateFallbackWave` from `src/services/geminiService.ts`
(lines 35-83): the deterministic offline wave generator
(`difficultyMult = 1 + waveNumber * 0.2`, scout multiplier `* 0.8`, tank
multiplier `* 1.5`). -/
def generateFallbackWave (waveNumber : ℕ) : WaveComposition :=
  let difficultyMult : Q := (1 : Q) + (waveNumber : Q) * ⟨1, 5⟩
  let enemies : List SpawnGroup :=
    [⟨.grunt, Q.floor ((5 : Q) * difficultyMult),
      Q.max 20 ((60 : Q) - (waveNumber : Q) * 2), difficultyMult⟩]
  let enemies := enemies ++
    (if 2 ≤ waveNumber then
      [(⟨.SCOUT, Q.floor ((3 : Q) * difficultyMult), 40,
          difficultyMult * ⟨4, 5⟩⟩ : SpawnGroup)]
    else [])
  let enemies := enemies ++
    (if 4 ≤ waveNumber ∧ waveNumber % 2 = 0 then
      [(⟨.TANK, Q.floor ((1 : Q) + (waveNumber : Q) / 5), 100,
          difficultyMult * ⟨3, 2⟩⟩ : SpawnGroup)]
    else [])
  let enemies := enemies ++
    (if waveNumber % 10 = 0 then
      [(⟨.BOSS, 1, 200, difficultyMult * 4⟩ : SpawnGroup)]
    else [])
  { briefing := "[SIMULATION MODE] Neural uplink offline. Wave " ++
      toString waveNumber ++ " generated via local combat algorithms.",
    enemies := enemies }

/-- `generateWave` from `src/services/geminiService.ts` (lines 85-145).  The
external Gemini request is modelled by the oracle `ai`; `ai` returning `none`
stands for any failure of the request (network error, missing or unparsable
response), which the source catches and resolves with the fallback.  With no
usable credential the source returns the fallback immediately, without
attempting the request. -/
def generateWave (env : Option String) (ai : ℕ → Q → Option WaveComposition)
    (waveNumber : ℕ) (difficultyMod : Q) : WaveComposition :=
  match getApiKey env with
  | none => generateFallbackWave waveNumber
  | some _ =>
    match ai waveNumber difficultyMod with
    | some comp => comp
    | none => generateFallbackWave waveNumber

/-! ## Entity records (`src/types.ts`) -/

/-- `EnemyEntity` from `src/types.ts`.  The random-string id is modelled by a
natural number drawn from the fresh-id counter. -/
structure EnemyEntity where
  id : ℕ
  type : EnemyType
  x : Q
  y : Q
  hp : Q
  maxHp : Q
  speed : Q
  pathIndex : ℕ
  frozen : ℤ
  distanceTraveled : Q
deriving DecidableEq, Repr

/-- `TowerEntity` from `src/types.ts`. -/
structure TowerEntity where
  id : ℕ
  type : TowerType
  x : Q
  y : Q
  cooldownTimer : ℤ
  level : ℕ
  range : Q
  damage : Q
  fireRate : ℤ
deriving DecidableEq, Repr

/-- `ProjectileEntity` from `src/types.ts`.  The optional `slowEffect` is
always set by the firing code (to `60` or `0`), so it is modelled as a plain
integer. -/
structure ProjectileEntity where
  id : ℕ
  x : Q
  y : Q
  targetId : ℕ
  damage : Q
  speed : Q
  color : String
  isAoE : Bool
  slowEffect : ℤ
deriving DecidableEq, Repr

/-- `Particle` from `src/types.ts`. -/
structure Particle where
  id : ℕ
  x : Q
  y : Q
  vx : Q
  vy : Q
  life : Q
  maxLife : Q
  color : String
  size : Q
deriving DecidableEq, Repr

/-- `GameState` from `src/types.ts`. -/
structure GameState where
  money : Q
  lives : ℤ
  wave : ℕ
  isPlaying : Bool
  isGameOver : Bool
  gameSpeed : Q
deriving DecidableEq, Repr

/-- The mutable refs of the `GameCanvas` component
(`src/components/UIOverlay.tsx`): entity stores, spawn bookkeeping and the
game state, plus the modelling bookkeeping (`nextId` for `Math.random` ids,
`rand` for the cosmetic particle samples). -/
structure World where
  gameState : GameState
  enemies : List EnemyEntity
  towers : List TowerEntity
  projectiles : List ProjectileEntity
  particles : List Particle
  frameCount : ℕ
  spawnTimer : Q
  enemiesToSpawn : List SpawnGroup
  waveComposition : Option WaveComposition
  nextId : ℕ
  rand : List Q
deriving DecidableEq, Repr

/-- The callbacks the step fires into the `App` component: `onWaveComplete`
and `onGameOver`. -/
structure StepEvents where
  waveComplete : Bool
  gameOver : Bool
deriving DecidableEq, Repr

/-! ## Helpers of the `GameCanvas` component -/

/-- `dist` helper (`src/components/UIOverlay.tsx` line 200). -/
def dist (x1 y1 x2 y2 : Q) : Q :=
  ratSqrt ((x2 - x1) * (x2 - x1) + (y2 - y1) * (y2 - y1))

/-- Pop one `Math.random()` sample from the ambient stream. -/
def takeRand (w : World) : Q × World :=
  match w.rand with
  | [] => (0, w)
  | r :: rest => (r, { w with rand := rest })

/-- `createParticles` (`src/components/UIOverlay.tsx` lines 392-405): pushes
`count` cosmetic particles with sampled velocity, lifetime and size. -/
def createParticles (x y : Q) (color : String) : ℕ → World → World
  | 0, w => w
  | n + 1, w =>
    let r1 := (takeRand w).1
    let w1 := (takeRand w).2
    let r2 := (takeRand w1).1
    let w2 := (takeRand w1).2
    let r3 := (takeRand w2).1
    let w3 := (takeRand w2).2
    let r4 := (takeRand w3).1
    let w4 := (takeRand w3).2
    let p : Particle :=
      { id := w4.nextId, x := x, y := y,
        vx := (r1 - ⟨1, 2⟩) * 4, vy := (r2 - ⟨1, 2⟩) * 4,
        life := (20 : Q) + r3 * 20, maxLife := 40, color := color,
        size := (2 : Q) + r4 * 3 }
    createParticles x y color n
      { w4 with particles := w4.particles ++ [p], nextId := w4.nextId + 1 }

/-- `damageEnemy` (`src/components/UIOverlay.tsx` lines 384-390): subtract
`dmg` from the enemy's hit points and, whenever the resulting hit points are
`≤ 0`, credit the enemy type's bounty and spawn ten death particles.  The
enemy object mutated in place by the source is addressed by its id. -/
def damageEnemy (eid : ℕ) (dmg : Q) (w : World) : World :=
  match w.enemies.find? (fun e => decide (e.id = eid)) with
  | none => w
  | some e =>
    let w1 :=
      { w with enemies :=
          w.enemies.map (fun x => if x.id = eid then { x with hp := x.hp - dmg } else x) }
    if e.hp - dmg ≤ 0 then
      createParticles e.x e.y (ENEMY_STATS e.type).color 10
        { w1 with gameState := { w1.gameState with
            money := w1.gameState.money + (ENEMY_STATS e.type).bounty } }
    else w1

/-! ## The simulation step (`update`, `src/components/UIOverlay.tsx`
lines 214-382), split into its numbered phases. -/

/-- The enemy record instantiated by the spawn branch of phase 1. -/
def spawnEnemy (g : SpawnGroup) (fresh : ℕ) : EnemyEntity :=
  { id := fresh, type := g.type,
    x := (PATH_WAYPOINTS.headD ⟨0, 0⟩).x, y := (PATH_WAYPOINTS.headD ⟨0, 0⟩).y,
    hp := (ENEMY_STATS g.type).hp * g.hpMultiplier,
    maxHp := (ENEMY_STATS g.type).hp * g.hpMultiplier,
    speed := (ENEMY_STATS g.type).speed, pathIndex := 0, frozen := 0,
    distanceTraveled := 0 }

def stepSpawnPhase (w : World) : World × Bool :=
  match w.enemiesToSpawn with
  | currentGroup :: rest =>
    if currentGroup.interval ≤ w.spawnTimer + 1 then
      ({ w with
          spawnTimer := 0,
          enemies := w.enemies ++ [spawnEnemy currentGroup w.nextId],
          nextId := w.nextId + 1,
          enemiesToSpawn :=
            if currentGroup.count - 1 ≤ 0 then rest
            else { currentGroup with count := currentGroup.count - 1 } :: rest },
        false)
    else ({ w with spawnTimer := w.spawnTimer + 1 }, false)
  | [] =>
    if w.enemies = [] ∧ w.waveComposition.isSome then (w, true) else (w, false)

/-- Per-enemy body of phase 2 (lines 254-284): decrement an active slow
timer, move toward the next waypoint at the effective speed (snapping when
closer than one frame's travel), or, when the path is exhausted, set hit
points to zero and report a leak.  The effective speed of the frame is
halved while the (already decremented) slow timer is still running. -/
def effSpeed (e : EnemyEntity) : Q :=
  if 0 < e.frozen then e.speed * ⟨1, 2⟩ else e.speed

/-- Movement of one (frozen-decremented) enemy toward the next waypoint.
`dist e.x e.y tn.x tn.y` is the source's
`Math.sqrt(dx*dx + dy*dy)` with `dx = tn.x - e.x`, `dy = tn.y - e.y`. -/
def moveEnemyAux (e : EnemyEntity) : EnemyEntity × Bool :=
  match PATH_WAYPOINTS[e.pathIndex + 1]? with
  | some targetNode =>
    if dist e.x e.y targetNode.x targetNode.y < effSpeed e then
      ({ e with
          x := targetNode.x,
          y := targetNode.y,
          pathIndex := e.pathIndex + 1,
          distanceTraveled := e.distanceTraveled + effSpeed e }, false)
    else
      ({ e with
          x := e.x + (targetNode.x - e.x) / dist e.x e.y targetNode.x targetNode.y * effSpeed e,
          y := e.y + (targetNode.y - e.y) / dist e.x e.y targetNode.x targetNode.y * effSpeed e,
          distanceTraveled := e.distanceTraveled + effSpeed e }, false)
  | none => ({ e with hp := 0 }, true)

def moveEnemy (e : EnemyEntity) : EnemyEntity × Bool :=
  moveEnemyAux (if 0 < e.frozen then { e with frozen := e.frozen - 1 } else e)

/-- Phase 2 (lines 253-285): move every enemy; each leak queues a functional
`lives := lives - 1` update and, when the decremented value is `≤ 0`, invokes
`onGameOver`.  Returns the updated world and whether `onGameOver` fired. -/
def stepMovePhase (w : World) : World × Bool :=
  let moved := w.enemies.map moveEnemy
  let acc := moved.foldl
    (fun (acc : ℤ × Bool) r =>
      if r.2 then (acc.1 - 1, acc.2 || decide (acc.1 - 1 ≤ 0)) else acc)
    (w.gameState.lives, false)
  ({ w with
      enemies := moved.map (fun r => r.1),
      gameState := { w.gameState with lives := acc.1 } }, acc.2)

/-- Dead-enemy filter (line 288): drop every enemy whose hit points are
`≤ 0`. -/
def stepFilterPhase (w : World) : World :=
  { w with enemies := w.enemies.filter (fun e => decide ((0 : Q) < e.hp)) }

/-- Target selection of phase 3 (lines 296-308): among enemies in range,
pick the one with the strictly greatest `distanceTraveled` (`maxDist`
initialised to `-1`). -/
def findTarget (tower : TowerEntity) (enemies : List EnemyEntity) :
    Option EnemyEntity :=
  (enemies.foldl
    (fun (acc : Option EnemyEntity × Q) enemy =>
      let d := dist tower.x tower.y enemy.x enemy.y
      if d ≤ tower.range then
        if acc.2 < enemy.distanceTraveled then (some enemy, enemy.distanceTraveled)
        else acc
      else acc)
    (none, -1)).1

/-- The projectile a firing tower emits (phase 3, lines 310-326). -/
def firedProjectile (t : TowerEntity) (target : EnemyEntity) (fresh : ℕ) :
    ProjectileEntity :=
  { id := fresh, x := t.x, y := t.y, targetId := target.id,
    damage := t.damage, speed := 10, color := (TOWER_STATS t.type).color,
    isAoE := t.type = TowerType.CANNON,
    slowEffect := if t.type = TowerType.SLOW then 60 else 0 }

/-- Firing decision for a (cooldown-decremented) tower. -/
def stepTowerAux (t : TowerEntity) (w : World) : TowerEntity × World :=
  if t.cooldownTimer ≤ 0 then
    match findTarget t w.enemies with
    | some target =>
      ({ t with cooldownTimer := (TOWER_STATS t.type).cooldown },
        { w with
            projectiles := w.projectiles ++ [firedProjectile t target w.nextId],
            nextId := w.nextId + 1 })
    | none => (t, w)
  else (t, w)

def stepTower (t : TowerEntity) (w : World) : TowerEntity × World :=
  stepTowerAux
    (if 0 < t.cooldownTimer then { t with cooldownTimer := t.cooldownTimer - 1 } else t) w

/-- Phase 3 (lines 290-328): run `stepTower` over the tower list in order. -/
def stepTowersPhase (w : World) : World :=
  let acc := w.towers.foldl
    (fun (acc : List TowerEntity × World) t =>
      (acc.1 ++ [(stepTower t acc.2).1], (stepTower t acc.2).2))
    ([], w)
  { acc.2 with towers := acc.1 }

/-- Splash damage of an area-of-effect impact centred on the target's
position (lines 347-353): sweep the enemy list and damage everything within
radius 60. -/
def aoeSweep (tx ty dmg : Q) (w : World) : World :=
  (w.enemies.map (fun e => (e.id, e.x, e.y))).foldl
    (fun acc t3 =>
      if dist tx ty t3.2.1 t3.2.2 < 60 then damageEnemy t3.1 dmg acc else acc)
    w

/-- Refresh the primary target's slow timer after a slow-projectile hit. -/
def applySlow (tid : ℕ) (slowEffect : ℤ) (w : World) : World :=
  if 0 < slowEffect then
    { w with enemies := w.enemies.map (fun e =>
        if e.id = tid then { e with frozen := slowEffect } else e) }
  else w

/-- Per-projectile body of phase 4 (lines 331-370): resolve the target by id
(discarding the projectile when it is gone), and on impact apply splash or
direct damage, the slow effect and the impact particles; otherwise advance
the projectile.  Returns `none` when the projectile is consumed. -/
def stepProjectile (p : ProjectileEntity) (w : World) :
    Option ProjectileEntity × World :=
  match w.enemies.find? (fun e => decide (e.id = p.targetId)) with
  | none => (none, w)
  | some target =>
    if dist p.x p.y target.x target.y < p.speed then
      if p.isAoE then
        (none, createParticles target.x target.y p.color 8
          (aoeSweep target.x target.y p.damage w))
      else
        (none, createParticles target.x target.y p.color 3
          (applySlow p.targetId p.slowEffect (damageEnemy p.targetId p.damage w)))
    else
      (some { p with
          x := p.x + (target.x - p.x) / dist p.x p.y target.x target.y * p.speed,
          y := p.y + (target.y - p.y) / dist p.x p.y target.x target.y * p.speed }, w)

/-- Phase 4 (lines 331-370): the source iterates the projectile array from
the last index down to `0`, splicing consumed projectiles out; `foldr`
processes the last projectile first and keeps survivors in order. -/
def stepProjectilesPhase (w : World) : World :=
  let acc := w.projectiles.foldr
    (fun p (acc : List ProjectileEntity × World) =>
      (match (stepProjectile p acc.2).1 with
       | some p2 => p2 :: acc.1
       | none => acc.1, (stepProjectile p acc.2).2))
    ([], { w with projectiles := [] })
  { acc.2 with projectiles := acc.1 }

/-- Phase 5 (lines 373-379): advance particles and drop expired ones. -/
def stepParticlesPhase (w : World) : World :=
  let moved := w.particles.map (fun p =>
    { p with x := p.x + p.vx, y := p.y + p.vy, life := p.life - 1 })
  { w with particles := moved.filter (fun p => decide ((0 : Q) < p.life)) }

/-- `handleWaveComplete` from `src/App.tsx` (lines 56-60), minus the UI
advice string: stop playing and clear the wave composition. -/
def handleWaveComplete (w : World) : World :=
  { w with
      gameState := { w.gameState with isPlaying := false },
      waveComposition := none }

/-- `handleGameOver` from `src/App.tsx` (lines 62-64). -/
def handleGameOver (w : World) : World :=
  { w with gameState := { w.gameState with isGameOver := true, isPlaying := false } }

/-- The guard of `update` (line 215): the step does nothing when the game is
over or not playing. -/
def runGuard (w : World) : Bool :=
  w.gameState.isGameOver || !w.gameState.isPlaying

/-- Phases 2-5 applied after spawning, plus the frame counter bump. -/
def runPhases (w : World) : World :=
  stepParticlesPhase
    (stepProjectilesPhase
      (stepTowersPhase
        (stepFilterPhase (stepMovePhase (stepSpawnPhase w).1).1)))

/-- Deliver the queued `onWaveComplete` / `onGameOver` callbacks (in that
order) to the `App` state. -/
def applyStepEvents (waveComplete gameOver : Bool) (w : World) : World :=
  if gameOver then
    handleGameOver (if waveComplete then handleWaveComplete w else w)
  else if waveComplete then handleWaveComplete w
  else w

/-- The world after one invocation of `update`
(`src/components/UIOverlay.tsx` lines 214-382).  The callbacks queued during
the step (`onWaveComplete`, `onGameOver`) are applied at its end, which is
when React delivers them relative to the next animation frame. -/
def updateWorld (w : World) : World :=
  if runGuard w then w
  else
    applyStepEvents (stepSpawnPhase w).2 (stepMovePhase (stepSpawnPhase w).1).2
      { runPhases w with frameCount := (runPhases w).frameCount + 1 }

/-- The callbacks one invocation of `update` fires. -/
def updateEvents (w : World) : StepEvents :=
  if runGuard w then ⟨false, false⟩
  else ⟨(stepSpawnPhase w).2, (stepMovePhase (stepSpawnPhase w).1).2⟩

/-- `update` (`src/components/UIOverlay.tsx` lines 214-382): one simulation
step, returning the resulting world together with the fired events. -/
def update (w : World) : World × StepEvents := (updateWorld w, updateEvents w)

/-- One simulation step, world part only (iterated frames). -/
def stepW (w : World) : World := (update w).1

/-! ## Placement (`handleCanvasClick`, lines 530-592) -/

/-- Why a click was rejected, in the order the source checks. -/
inductive PlaceOutcome where
  | rejectedNoSelection
  | rejectedGameOver
  | rejectedFunds
  | rejectedOccupied
  | rejectedOnPath
  | placed
deriving DecidableEq, Repr

/-- Grid snap of a click coordinate (lines 540-541). -/
def snapCoord (m : Q) : Q :=
  ((Q.floor (m / GRID_SIZE) : ℤ) : Q) * GRID_SIZE + GRID_SIZE / 2

/-- Path-overlap check (lines 556-571): the snapped point is "on the path"
when it lies in some segment's axis-aligned bounding box inflated by half a
grid cell. -/
def isOnPath (gridX gridY : Q) : Bool :=
  (PATH_WAYPOINTS.zip PATH_WAYPOINTS.tail).any (fun pq =>
    let minX := Q.min pq.1.x pq.2.x - GRID_SIZE / 2
    let maxX := Q.max pq.1.x pq.2.x + GRID_SIZE / 2
    let minY := Q.min pq.1.y pq.2.y - GRID_SIZE / 2
    let maxY := Q.max pq.1.y pq.2.y + GRID_SIZE / 2
    decide (minX ≤ gridX ∧ gridX ≤ maxX ∧ minY ≤ gridY ∧ gridY ≤ maxY))

/-- The tower record created by a successful placement: snapped coordinates,
zero cooldown, stats copied from the tower type. -/
def placedTower (sel : TowerType) (gridX gridY : Q) (fresh : ℕ) : TowerEntity :=
  { id := fresh, type := sel, x := gridX, y := gridY,
    cooldownTimer := 0, level := 1, range := (TOWER_STATS sel).range,
    damage := (TOWER_STATS sel).damage, fireRate := (TOWER_STATS sel).cooldown }

/-- `handleCanvasClick` (lines 530-592).  The canvas bounding-rect lookup is
an environment detail (it can only fail before the canvas is mounted) and is
elided; `mouseX`/`mouseY` are the click coordinates relative to the canvas.
The source's first guard `!selectedTower || gameState.isGameOver` evaluates
the selection first. -/
def handleCanvasClick (selectedTower : Option TowerType) (mouseX mouseY : Q)
    (w : World) : World × PlaceOutcome :=
  match selectedTower with
  | none => (w, .rejectedNoSelection)
  | some sel =>
    if w.gameState.isGameOver then (w, .rejectedGameOver)
    else if w.gameState.money < (TOWER_STATS sel).cost then (w, .rejectedFunds)
    else if w.towers.any (fun t =>
        decide (t.x = snapCoord mouseX ∧ t.y = snapCoord mouseY)) then
      (w, .rejectedOccupied)
    else if isOnPath (snapCoord mouseX) (snapCoord mouseY) then
      (w, .rejectedOnPath)
    else
      (createParticles (snapCoord mouseX) (snapCoord mouseY) "#fff" 10
        { w with
            towers := w.towers ++
              [placedTower sel (snapCoord mouseX) (snapCoord mouseY) w.nextId],
            nextId := w.nextId + 1,
            gameState := { w.gameState with
              money := w.gameState.money - (TOWER_STATS sel).cost } },
        .placed)

/-- The relation "this transformation at most credits money and touches no
other game-state field": the shape of every mutation performed during
projectile resolution. -/
def MoneyOnly (w w2 : World) : Prop :=
  w2.gameState.lives = w.gameState.lives ∧
  w2.gameState.wave = w.gameState.wave ∧
  w2.gameState.isPlaying = w.gameState.isPlaying ∧
  w2.gameState.isGameOver = w.gameState.isGameOver ∧
  w2.gameState.gameSpeed = w.gameState.gameSpeed ∧
  (w.gameState.money.den ≠ 0 →
    w.gameState.money.val ≤ w2.gameState.money.val ∧ w2.gameState.money.den ≠ 0)

/-- The number of enemies that leak (reach past the last waypoint) this
frame. -/
def leakCount (w : World) : ℕ :=
  (w.enemies.filter
    (fun e => decide (PATH_WAYPOINTS[e.pathIndex + 1]? = none))).length

/-! ## Concrete scenario worlds -/

/-- A playing game state with the given money and lives. -/
def playingState (money : Q) (lives : ℤ) : GameState :=
  { money := money, lives := lives, wave := 1, isPlaying := true,
    isGameOver := false, gameSpeed := 1 }

/-- A grunt that has already passed the final waypoint (path index `9` is the
last waypoint of the ten-point path). -/
def leakedGrunt (i : ℕ) : EnemyEntity :=
  { id := i, type := .grunt, x := ⟨820, 1⟩, y := ⟨540, 1⟩, hp := 80,
    maxHp := 80, speed := ⟨3, 2⟩, pathIndex := 9, frozen := 0,
    distanceTraveled := ⟨2360, 1⟩ }

/-- One life left, two enemies crossing the final waypoint in the same
frame. -/
def twoLeakWorld : World :=
  { gameState := playingState 0 1, enemies := [leakedGrunt 0, leakedGrunt 1],
    towers := [], projectiles := [], particles := [], frameCount := 0,
    spawnTimer := 0, enemiesToSpawn := [], waveComposition := none,
    nextId := 2, rand := [] }

/-- A healthy grunt on the first (horizontal) path segment. -/
def gruntOnSegment : EnemyEntity :=
  { id := 0, type := .grunt, x := 100, y := 100, hp := 80, maxHp := 80,
    speed := ⟨3, 2⟩, pathIndex := 0, frozen := 0, distanceTraveled := 80 }

/-- A railgun shot about to land on `gruntOnSegment`'s position after this
frame's movement. -/
def railShot (pid : ℕ) : ProjectileEntity :=
  { id := pid, x := ⟨203, 2⟩, y := 100, targetId := 0, damage := 100,
    speed := 10, color := "#84cc16", isAoE := false, slowEffect := 0 }

/-- One enemy, one lethal projectile landing this frame. -/
def oneShotWorld : World :=
  { gameState := playingState 0 20, enemies := [gruntOnSegment], towers := [],
    projectiles := [railShot 1], particles := [], frameCount := 0,
    spawnTimer := 0, enemiesToSpawn := [], waveComposition := none,
    nextId := 2, rand := [] }

/-- One enemy, two lethal projectiles landing in the same frame. -/
def doubleHitWorld : World :=
  { gameState := playingState 0 20, enemies := [gruntOnSegment], towers := [],
    projectiles := [railShot 1, railShot 2], particles := [], frameCount := 0,
    spawnTimer := 0, enemiesToSpawn := [], waveComposition := none,
    nextId := 3, rand := [] }

/-- A grunt whose slow timer has exactly one frame left. -/
def lastSlowFrameGrunt : EnemyEntity :=
  { id := 0, type := .grunt, x := 100, y := 100, hp := 80, maxHp := 80,
    speed := ⟨3, 2⟩, pathIndex := 0, frozen := 1, distanceTraveled := 0 }

/-- One enemy entering the frame with `frozen = 1`. -/
def lastSlowFrameWorld : World :=
  { gameState := playingState 0 20, enemies := [lastSlowFrameGrunt],
    towers := [], projectiles := [], particles := [], frameCount := 0,
    spawnTimer := 0, enemiesToSpawn := [], waveComposition := none,
    nextId := 1, rand := [] }

/-- `gruntOnSegment` after one frame of unslowed movement. -/
def gruntOnSegmentMoved : EnemyEntity :=
  { gruntOnSegment with x := ⟨203, 2⟩, distanceTraveled := ⟨163, 2⟩ }

/-- A fresh playing world with the initial money and an idle board. -/
def placementWorld : World :=
  { gameState := playingState 120 20, enemies := [], towers := [],
    projectiles := [], particles := [], frameCount := 0, spawnTimer := 0,
    enemiesToSpawn := [], waveComposition := none, nextId := 0, rand := [] }

/-- A playing world whose spawn queue and enemy list are both empty while a
wave composition is loaded: the wave-complete configuration. -/
def clearedWaveWorld : World :=
  { gameState := playingState 120 20, enemies := [], towers := [],
    projectiles := [], particles := [], frameCount := 0, spawnTimer := 0,
    enemiesToSpawn := [], waveComposition := some ⟨[], "cleared"⟩,
    nextId := 0, rand := [] }

/-- An idle world: not playing, nothing queued. -/
def idleWorld : World :=
  { gameState := { money := 120, lives := 20, wave := 0, isPlaying := false,
                   isGameOver := false, gameSpeed := 1 },
    enemies := [], towers := [], projectiles := [], particles := [],
    frameCount := 0, spawnTimer := 0, enemiesToSpawn := [],
    waveComposition := none, nextId := 0, rand := [] }

/-- The C7 scenario: a fresh wave of three grunts spawning every ten
frames. -/
def threeGruntWorld : World :=
  { gameState := playingState 120 20, enemies := [], towers := [],
    projectiles := [], particles := [], frameCount := 0, spawnTimer := 0,
    enemiesToSpawn := [⟨.grunt, 3, 10, 1⟩],
    waveComposition := some ⟨[⟨.grunt, 3, 10, 1⟩], "incoming"⟩,
    nextId := 0, rand := [] }

/-! ## Structural lemmas about the step's building blocks -/

theorem Q.num_ofNat (n : ℕ) : (OfNat.ofNat n : Q).num = OfNat.ofNat n := rfl

theorem Q.den_ofNat (n : ℕ) : (OfNat.ofNat n : Q).den = 1 := rfl

theorem Q.add_def (a b : Q) :
    a + b = Q.norm (a.num * b.den + b.num * a.den) (a.den * b.den) := rfl

theorem Q.sub_def (a b : Q) :
    a - b = Q.norm (a.num * b.den - b.num * a.den) (a.den * b.den) := rfl

theorem Q.lt_def (a b : Q) : a < b ↔ a.num * b.den < b.num * a.den := Iff.rfl

theorem Q.le_def (a b : Q) : a ≤ b ↔ a.num * b.den ≤ b.num * a.den := Iff.rfl

/-- Every normalized fraction has a positive denominator. -/
theorem Q.norm_den_pos (n d : ℤ) : 0 < (Q.norm n d).den := by
  unfold Q.norm
  split
  · exact one_pos
  · rename_i hd
    have hsd : 0 < (if d < 0 then (-1 : ℤ) else 1) * d := by
      split <;> rename_i h <;> omega
    have hgne : Int.gcd n d ≠ 0 := fun h => hd (Int.gcd_eq_zero_iff.mp h).2
    have hg : (0 : ℤ) < (Int.gcd n d : ℤ) :=
      Int.natCast_pos.mpr (Nat.pos_of_ne_zero hgne)
    have hdvd : ((Int.gcd n d : ℤ)) ∣ (if d < 0 then (-1 : ℤ) else 1) * d :=
      Dvd.dvd.mul_left Int.gcd_dvd_right _
    obtain ⟨c, hc⟩ := hdvd
    show 0 < (if d < 0 then (-1 : ℤ) else 1) * d / (Int.gcd n d : ℤ)
    rw [hc, Int.mul_ediv_cancel_left _ hg.ne']
    rcases mul_pos_iff.mp (hc ▸ hsd) with h | h
    · exact h.2
    · exact absurd hg (by omega)

/-- Value of a normalized fraction. -/
theorem Q.val_norm (n d : ℤ) (hd : d ≠ 0) :
    (Q.norm n d).val = (n : ℚ) / (d : ℚ) := by
  unfold Q.norm
  rw [if_neg hd]
  have hs0 : (if d < 0 then (-1 : ℤ) else 1) ≠ 0 := by split <;> omega
  have hgne : Int.gcd n d ≠ 0 := fun h => hd (Int.gcd_eq_zero_iff.mp h).2
  have hg0 : ((Int.gcd n d : ℤ)) ≠ 0 := by exact_mod_cast hgne
  have hdn : ((Int.gcd n d : ℤ)) ∣ (if d < 0 then (-1 : ℤ) else 1) * n :=
    Dvd.dvd.mul_left Int.gcd_dvd_left _
  have hdd : ((Int.gcd n d : ℤ)) ∣ (if d < 0 then (-1 : ℤ) else 1) * d :=
    Dvd.dvd.mul_left Int.gcd_dvd_right _
  show Q.val ⟨_ / _, _ / _⟩ = _
  unfold Q.val
  rw [Int.cast_div_charZero hdn, Int.cast_div_charZero hdd]
  have hsQ : (if d < 0 then (-1 : ℚ) else 1) ≠ 0 := by split <;> norm_num
  have hgQ : ((Int.gcd n d : ℕ) : ℚ) ≠ 0 := Nat.cast_ne_zero.mpr hgne
  have hdQ : ((d : ℤ) : ℚ) ≠ 0 := Int.cast_ne_zero.mpr hd
  push_cast
  field_simp
  have hgd : ((Int.gcd n d : ℕ) : ℚ) * ((d : ℤ) : ℚ) ≠ 0 := mul_ne_zero hgQ hdQ
  split
  · rw [neg_div_neg_eq, mul_assoc, mul_div_cancel_right₀ _ hgd]
  · rw [mul_assoc, mul_div_cancel_right₀ _ hgd]

theorem Q.val_add (a b : Q) (ha : a.den ≠ 0) (hb : b.den ≠ 0) :
    (a + b).val = a.val + b.val := by
  rw [Q.add_def, Q.val_norm _ _ (mul_ne_zero ha hb)]
  unfold Q.val
  have haQ : ((a.den : ℤ) : ℚ) ≠ 0 := Int.cast_ne_zero.mpr ha
  have hbQ : ((b.den : ℤ) : ℚ) ≠ 0 := Int.cast_ne_zero.mpr hb
  push_cast
  field_simp

theorem Q.val_sub (a b : Q) (ha : a.den ≠ 0) (hb : b.den ≠ 0) :
    (a - b).val = a.val - b.val := by
  rw [Q.sub_def, Q.val_norm _ _ (mul_ne_zero ha hb)]
  unfold Q.val
  have haQ : ((a.den : ℤ) : ℚ) ≠ 0 := Int.cast_ne_zero.mpr ha
  have hbQ : ((b.den : ℤ) : ℚ) ≠ 0 := Int.cast_ne_zero.mpr hb
  push_cast
  field_simp
  ring

theorem Q.lt_iff_val (a b : Q) (ha : 0 < a.den) (hb : 0 < b.den) :
    a < b ↔ a.val < b.val := by
  rw [Q.lt_def]
  unfold Q.val
  rw [div_lt_div_iff (by exact_mod_cast ha) (by exact_mod_cast hb)]
  exact_mod_cast Iff.rfl

theorem Q.le_iff_val (a b : Q) (ha : 0 < a.den) (hb : 0 < b.den) :
    a ≤ b ↔ a.val ≤ b.val := by
  rw [Q.le_def]
  unfold Q.val
  rw [div_le_div_iff (by exact_mod_cast ha) (by exact_mod_cast hb)]
  exact_mod_cast Iff.rfl


theorem takeRand_core (w : World) :
    (takeRand w).2.gameState = w.gameState ∧
    (takeRand w).2.enemies = w.enemies ∧
    (takeRand w).2.towers = w.towers ∧
    (takeRand w).2.projectiles = w.projectiles ∧
    (takeRand w).2.enemiesToSpawn = w.enemiesToSpawn ∧
    (takeRand w).2.waveComposition = w.waveComposition := by
  unfold takeRand
  cases w.rand <;> simp

/-- `createParticles` only touches the particle store and the id/sample
bookkeeping: game state unchanged. -/
theorem createParticles_gameState (x y : Q) (c : String) (n : ℕ) (w : World) :
    (createParticles x y c n w).gameState = w.gameState := by
  induction n generalizing w with
  | zero => rfl
  | succ n ih =>
    simp only [createParticles]
    rw [ih]
    simp [(takeRand_core _).1]

theorem createParticles_enemies (x y : Q) (c : String) (n : ℕ) (w : World) :
    (createParticles x y c n w).enemies = w.enemies := by
  induction n generalizing w with
  | zero => rfl
  | succ n ih =>
    simp only [createParticles]
    rw [ih]
    simp [(takeRand_core _).2.1]

theorem createParticles_towers (x y : Q) (c : String) (n : ℕ) (w : World) :
    (createParticles x y c n w).towers = w.towers := by
  induction n generalizing w with
  | zero => rfl
  | succ n ih =>
    simp only [createParticles]
    rw [ih]
    simp [(takeRand_core _).2.2.1]

theorem createParticles_projectiles (x y : Q) (c : String) (n : ℕ) (w : World) :
    (createParticles x y c n w).projectiles = w.projectiles := by
  induction n generalizing w with
  | zero => rfl
  | succ n ih =>
    simp only [createParticles]
    rw [ih]
    simp [(takeRand_core _).2.2.2.1]

theorem createParticles_queue (x y : Q) (c : String) (n : ℕ) (w : World) :
    (createParticles x y c n w).enemiesToSpawn = w.enemiesToSpawn := by
  induction n generalizing w with
  | zero => rfl
  | succ n ih =>
    simp only [createParticles]
    rw [ih]
    simp [(takeRand_core _).2.2.2.2.1]

theorem createParticles_waveComposition (x y : Q) (c : String) (n : ℕ) (w : World) :
    (createParticles x y c n w).waveComposition = w.waveComposition := by
  induction n generalizing w with
  | zero => rfl
  | succ n ih =>
    simp only [createParticles]
    rw [ih]
    simp [(takeRand_core _).2.2.2.2.2]

theorem Q.add_den_ne (a b : Q) : (a + b).den ≠ 0 := by
  rw [Q.add_def]
  exact (Q.norm_den_pos _ _).ne'

theorem Q.val_intOne (z : ℤ) : (⟨z, 1⟩ : Q).val = (z : ℚ) := by
  unfold Q.val
  norm_num

/-- Every enemy bounty is a nonnegative machine number. -/
theorem bounty_val_nonneg (t : EnemyType) : 0 ≤ ((ENEMY_STATS t).bounty).val := by
  cases t
  · show (0 : ℚ) ≤ (⟨5, 1⟩ : Q).val
    rw [Q.val_intOne]; norm_num
  · show (0 : ℚ) ≤ (⟨10, 1⟩ : Q).val
    rw [Q.val_intOne]; norm_num
  · show (0 : ℚ) ≤ (⟨30, 1⟩ : Q).val
    rw [Q.val_intOne]; norm_num
  · show (0 : ℚ) ≤ (⟨200, 1⟩ : Q).val
    rw [Q.val_intOne]; norm_num

theorem bounty_den_ne (t : EnemyType) : (ENEMY_STATS t).bounty.den ≠ 0 := by
  cases t <;> decide

theorem MoneyOnly.rfl {w w2 : World} (h : w2.gameState = w.gameState) :
    MoneyOnly w w2 := by
  refine ⟨by rw [h], by rw [h], by rw [h], by rw [h], by rw [h], ?_⟩
  intro hd
  rw [h]
  exact ⟨le_refl _, hd⟩

theorem MoneyOnly.trans {w w2 w3 : World}
    (h12 : MoneyOnly w w2) (h23 : MoneyOnly w2 w3) : MoneyOnly w w3 := by
  obtain ⟨a1, a2, a3, a4, a5, a6⟩ := h12
  obtain ⟨b1, b2, b3, b4, b5, b6⟩ := h23
  refine ⟨b1.trans a1, b2.trans a2, b3.trans a3, b4.trans a4, b5.trans a5, ?_⟩
  intro hd
  obtain ⟨hle, hne⟩ := a6 hd
  obtain ⟨hle2, hne2⟩ := b6 hne
  exact ⟨hle.trans hle2, hne2⟩

/-- The game state after `damageEnemy`: unchanged, or exactly one bounty
credited. -/
theorem damageEnemy_gameState_eq (eid : ℕ) (dmg : Q) (w : World) :
    (damageEnemy eid dmg w).gameState = w.gameState ∨
    ∃ t, (damageEnemy eid dmg w).gameState =
      { w.gameState with money := w.gameState.money + (ENEMY_STATS t).bounty } := by
  unfold damageEnemy
  split
  · exact Or.inl rfl
  · rename_i e heq
    split
    · exact Or.inr ⟨e.type, by rw [createParticles_gameState]⟩
    · exact Or.inl rfl

/-- `damageEnemy` at most credits one bounty. -/
theorem damageEnemy_moneyOnly (eid : ℕ) (dmg : Q) (w : World) :
    MoneyOnly w (damageEnemy eid dmg w) := by
  rcases damageEnemy_gameState_eq eid dmg w with h | ⟨t, h⟩
  · exact MoneyOnly.rfl h
  · refine ⟨by rw [h], by rw [h], by rw [h], by rw [h], by rw [h], ?_⟩
    intro hd
    rw [h]
    refine ⟨?_, Q.add_den_ne _ _⟩
    show w.gameState.money.val ≤ (w.gameState.money + (ENEMY_STATS t).bounty).val
    rw [Q.val_add _ _ hd (bounty_den_ne t)]
    have := bounty_val_nonneg t
    linarith

/-- The auxiliary fold of the splash-damage sweep at most credits
bounties. -/
theorem aoeFold_moneyOnly (tx ty dmg : Q) (l : List (ℕ × Q × Q)) (w : World) :
    MoneyOnly w (l.foldl
      (fun acc t3 =>
        if dist tx ty t3.2.1 t3.2.2 < 60 then damageEnemy t3.1 dmg acc else acc)
      w) := by
  induction l generalizing w with
  | nil => exact MoneyOnly.rfl rfl
  | cons hd tl ih =>
    rw [List.foldl_cons]
    refine MoneyOnly.trans
      (?_ : MoneyOnly w
        (if dist tx ty hd.2.1 hd.2.2 < 60 then damageEnemy hd.1 dmg w else w))
      (ih _)
    split
    · exact damageEnemy_moneyOnly _ _ _
    · exact MoneyOnly.rfl rfl

theorem aoeSweep_moneyOnly (tx ty dmg : Q) (w : World) :
    MoneyOnly w (aoeSweep tx ty dmg w) :=
  aoeFold_moneyOnly tx ty dmg _ w

theorem applySlow_gameState (tid : ℕ) (s : ℤ) (w : World) :
    (applySlow tid s w).gameState = w.gameState := by
  unfold applySlow
  split <;> rfl

/-- Resolving one projectile at most credits bounties. -/
theorem stepProjectile_moneyOnly (p : ProjectileEntity) (w : World) :
    MoneyOnly w (stepProjectile p w).2 := by
  unfold stepProjectile
  split
  · exact MoneyOnly.rfl rfl
  · rename_i target heq
    split
    · split
      · exact MoneyOnly.trans (aoeSweep_moneyOnly _ _ _ _)
          (MoneyOnly.rfl (createParticles_gameState _ _ _ _ _))
      · refine MoneyOnly.trans (damageEnemy_moneyOnly p.targetId p.damage w) ?_
        exact MoneyOnly.trans (MoneyOnly.rfl (applySlow_gameState _ _ _))
          (MoneyOnly.rfl (createParticles_gameState _ _ _ _ _))
    · exact MoneyOnly.rfl rfl

/-- The projectile sweep (processed back to front) at most credits
bounties. -/
theorem projFold_moneyOnly (l : List ProjectileEntity)
    (init : List ProjectileEntity × World) :
    MoneyOnly init.2 (l.foldr
      (fun p (acc : List ProjectileEntity × World) =>
        (match (stepProjectile p acc.2).1 with
         | some p2 => p2 :: acc.1
         | none => acc.1, (stepProjectile p acc.2).2))
      init).2 := by
  induction l with
  | nil => exact MoneyOnly.rfl rfl
  | cons hd tl ih =>
    rw [List.foldr_cons]
    exact MoneyOnly.trans ih (stepProjectile_moneyOnly hd _)

/-- Phase 4 as a whole at most credits bounties and touches no other
game-state field. -/
theorem stepProjectilesPhase_moneyOnly (w : World) :
    MoneyOnly w (stepProjectilesPhase w) := by
  unfold stepProjectilesPhase
  refine MoneyOnly.trans
    (MoneyOnly.rfl rfl : MoneyOnly w { w with projectiles := [] }) ?_
  exact MoneyOnly.trans (projFold_moneyOnly w.projectiles _) (MoneyOnly.rfl rfl)

theorem stepSpawnPhase_gameState (w : World) :
    (stepSpawnPhase w).1.gameState = w.gameState := by
  unfold stepSpawnPhase
  split <;> split <;> rfl

/-- The spawn phase either leaves the enemy list alone or appends one fresh
enemy standing at the first waypoint. -/
theorem stepSpawnPhase_enemies (w : World) :
    (stepSpawnPhase w).1.enemies = w.enemies ∨
    ∃ g, (stepSpawnPhase w).1.enemies =
      w.enemies ++ [spawnEnemy g w.nextId] := by
  unfold stepSpawnPhase
  split
  · split
    · exact Or.inr ⟨_, rfl⟩
    · exact Or.inl rfl
  · split <;> exact Or.inl rfl

theorem stepFilterPhase_gameState (w : World) :
    (stepFilterPhase w).gameState = w.gameState := rfl

theorem stepParticlesPhase_gameState (w : World) :
    (stepParticlesPhase w).gameState = w.gameState := rfl

theorem stepTowerAux_gameState (t : TowerEntity) (w : World) :
    (stepTowerAux t w).2.gameState = w.gameState := by
  unfold stepTowerAux
  split
  · split <;> rfl
  · rfl

theorem stepTower_gameState (t : TowerEntity) (w : World) :
    (stepTower t w).2.gameState = w.gameState :=
  stepTowerAux_gameState _ w

theorem towersFold_gameState (ts : List TowerEntity)
    (acc : List TowerEntity × World) :
    ((ts.foldl
      (fun (acc : List TowerEntity × World) t =>
        (acc.1 ++ [(stepTower t acc.2).1], (stepTower t acc.2).2))
      acc).2).gameState = acc.2.gameState := by
  induction ts generalizing acc with
  | nil => rfl
  | cons hd tl ih =>
    rw [List.foldl_cons, ih]
    exact stepTower_gameState hd acc.2

theorem stepTowersPhase_gameState (w : World) :
    (stepTowersPhase w).gameState = w.gameState := by
  unfold stepTowersPhase
  exact towersFold_gameState w.towers ([], w)

theorem handleWaveComplete_lives (w : World) :
    (handleWaveComplete w).gameState.lives = w.gameState.lives := rfl

theorem handleWaveComplete_money (w : World) :
    (handleWaveComplete w).gameState.money = w.gameState.money := rfl

theorem handleGameOver_lives (w : World) :
    (handleGameOver w).gameState.lives = w.gameState.lives := rfl

theorem handleGameOver_money (w : World) :
    (handleGameOver w).gameState.money = w.gameState.money := rfl

theorem applyStepEvents_lives (wc go : Bool) (w : World) :
    (applyStepEvents wc go w).gameState.lives = w.gameState.lives := by
  unfold applyStepEvents
  split
  · split <;> rfl
  · split <;> rfl

theorem applyStepEvents_money (wc go : Bool) (w : World) :
    (applyStepEvents wc go w).gameState.money = w.gameState.money := by
  unfold applyStepEvents
  split
  · split <;> rfl
  · split <;> rfl

/-- The per-enemy movement body reports a leak exactly when the path is
exhausted. -/
theorem moveEnemyAux_leak (e : EnemyEntity) :
    (moveEnemyAux e).2 = decide (PATH_WAYPOINTS[e.pathIndex + 1]? = none) := by
  unfold moveEnemyAux
  split
  · rename_i tn heq
    split <;> simp [heq]
  · rename_i heq
    simp [heq]

theorem moveEnemy_leak (e : EnemyEntity) :
    (moveEnemy e).2 = decide (PATH_WAYPOINTS[e.pathIndex + 1]? = none) := by
  unfold moveEnemy
  rw [moveEnemyAux_leak]
  have h : (if 0 < e.frozen then { e with frozen := e.frozen - 1 } else e).pathIndex
      = e.pathIndex := by split <;> rfl
  rw [h]

/-- The per-enemy movement body never changes the slow timer. -/
theorem moveEnemyAux_frozen (e : EnemyEntity) :
    (moveEnemyAux e).1.frozen = e.frozen := by
  unfold moveEnemyAux
  split
  · split <;> rfl
  · rfl

/-- When a next waypoint exists, the movement body adds the effective speed
to the distance traveled. -/
theorem moveEnemyAux_dt (e : EnemyEntity) (tn : Vector2D)
    (h : PATH_WAYPOINTS[e.pathIndex + 1]? = some tn) :
    (moveEnemyAux e).1.distanceTraveled = e.distanceTraveled + effSpeed e := by
  simp only [moveEnemyAux, h]
  split <;> rfl

/-- Effective speed of the frozen-decremented record: half speed exactly when
the original timer exceeds one. -/
theorem effSpeed_dec (e : EnemyEntity) :
    effSpeed (if 0 < e.frozen then { e with frozen := e.frozen - 1 } else e) =
      (if 1 < e.frozen then e.speed * ⟨1, 2⟩ else e.speed) := by
  by_cases hf : 0 < e.frozen
  · rw [if_pos hf]
    show (if 0 < e.frozen - 1 then e.speed * ⟨1, 2⟩ else e.speed) = _
    by_cases h1 : 1 < e.frozen
    · rw [if_pos (by omega), if_pos h1]
    · rw [if_neg (by omega), if_neg h1]
  · rw [if_neg hf]
    unfold effSpeed
    rw [if_neg hf, if_neg (show ¬ 1 < e.frozen by omega)]

/-- Closed form of the lives-decrement fold of phase 2. -/
theorem leakFold_lives (l : List (EnemyEntity × Bool)) (lives : ℤ) (b : Bool) :
    (l.foldl
      (fun (acc : ℤ × Bool) r =>
        if r.2 then (acc.1 - 1, acc.2 || decide (acc.1 - 1 ≤ 0)) else acc)
      (lives, b)).1 = lives - (l.filter (fun r => r.2)).length := by
  induction l generalizing lives b with
  | nil => simp
  | cons hd tl ih =>
    rw [List.foldl_cons, List.filter_cons]
    by_cases h : hd.2 = true
    · rw [if_pos h, if_pos h, ih]
      simp only [List.length_cons]
      push_cast
      ring
    · rw [if_neg h, if_neg h, ih]

theorem stepMovePhase_lives (w : World) :
    (stepMovePhase w).1.gameState.lives = w.gameState.lives - leakCount w := by
  unfold stepMovePhase leakCount
  simp only []
  rw [leakFold_lives]
  congr 2
  rw [List.filter_map, List.length_map]
  congr 1
  apply List.filter_congr
  intro e _
  simp only [Function.comp_apply]
  exact moveEnemy_leak e

theorem stepMovePhase_money (w : World) :
    (stepMovePhase w).1.gameState.money = w.gameState.money := rfl

theorem stepMovePhase_wave (w : World) :
    (stepMovePhase w).1.gameState.wave = w.gameState.wave := rfl

/-- A freshly spawned enemy stands at waypoint `0` and so never counts as a
leak. -/
theorem leakCount_stepSpawnPhase (w : World) :
    leakCount (stepSpawnPhase w).1 = leakCount w := by
  rcases stepSpawnPhase_enemies w with h | ⟨g, h⟩
  · unfold leakCount
    rw [h]
  · unfold leakCount
    rw [h, List.filter_append, List.length_append]
    have hnone : decide (PATH_WAYPOINTS[(0 : ℕ) + 1]? = none) = false := by decide
    simp [spawnEnemy, hnone]
    decide

/-- A running step decrements lives by exactly the number of enemies that
leaked this frame; nothing else in the step touches lives. -/
theorem updateWorld_lives (w : World) (h : runGuard w = false) :
    (updateWorld w).gameState.lives = w.gameState.lives - leakCount w := by
  unfold updateWorld
  rw [if_neg (by simp [h])]
  rw [applyStepEvents_lives]
  show (runPhases w).gameState.lives = _
  unfold runPhases
  rw [stepParticlesPhase_gameState]
  rw [(stepProjectilesPhase_moneyOnly _).1]
  rw [stepTowersPhase_gameState, stepFilterPhase_gameState, stepMovePhase_lives,
    leakCount_stepSpawnPhase, stepSpawnPhase_gameState]

/-- A guarded step (game over or not playing) is the identity. -/
theorem updateWorld_guard (w : World) (h : runGuard w = true) :
    updateWorld w = w := by
  unfold updateWorld
  rw [if_pos h]

/-- Money never decreases during a simulation step: the step only ever adds
bounties to it. -/
theorem updateWorld_money (w : World) (hd : w.gameState.money.den ≠ 0) :
    w.gameState.money.val ≤ (updateWorld w).gameState.money.val ∧
    (updateWorld w).gameState.money.den ≠ 0 := by
  unfold updateWorld
  by_cases h : runGuard w = true
  · rw [if_pos h]
    exact ⟨le_refl _, hd⟩
  · rw [if_neg h]
    rw [applyStepEvents_money]
    show w.gameState.money.val ≤ (runPhases w).gameState.money.val ∧
      (runPhases w).gameState.money.den ≠ 0
    unfold runPhases
    rw [stepParticlesPhase_gameState]
    have hx : (stepTowersPhase
        (stepFilterPhase (stepMovePhase (stepSpawnPhase w).1).1)).gameState.money
        = w.gameState.money := by
      rw [stepTowersPhase_gameState, stepFilterPhase_gameState, stepMovePhase_money,
        stepSpawnPhase_gameState]
    have hmo := (stepProjectilesPhase_moneyOnly
      (stepTowersPhase (stepFilterPhase (stepMovePhase (stepSpawnPhase w).1).1))).2.2.2.2.2
    rw [hx] at hmo
    exact hmo hd

theorem cost_den_pos (t : TowerType) : 0 < (TOWER_STATS t).cost.den := by
  cases t <;> decide

/-- The game state after a click: unchanged, or exactly one admitted cost
deducted. -/
theorem handleCanvasClick_gameState (sel : Option TowerType) (mx my : Q)
    (w : World) :
    (handleCanvasClick sel mx my w).1.gameState = w.gameState ∨
    ∃ t, sel = some t ∧ ¬(w.gameState.money < (TOWER_STATS t).cost) ∧
      (handleCanvasClick sel mx my w).1.gameState =
        { w.gameState with
            money := w.gameState.money - (TOWER_STATS t).cost } := by
  cases sel with
  | none => exact Or.inl rfl
  | some t =>
    simp only [handleCanvasClick]
    split_ifs with h1 h2 h3 h4
    · exact Or.inl rfl
    · exact Or.inl rfl
    · exact Or.inl rfl
    · exact Or.inl rfl
    · exact Or.inr ⟨t, rfl, h2, by rw [createParticles_gameState]⟩

/-- The selected tower-firing target is an element of the enemy list it was
selected from. -/
theorem findTarget_mem (t : TowerEntity) (es : List EnemyEntity)
    (x : EnemyEntity) (h : findTarget t es = some x) : x ∈ es := by
  unfold findTarget at h
  suffices haux : ∀ (acc : Option EnemyEntity × Q),
      (es.foldl
        (fun (acc : Option EnemyEntity × Q) enemy =>
          if dist t.x t.y enemy.x enemy.y ≤ t.range then
            if acc.2 < enemy.distanceTraveled then (some enemy, enemy.distanceTraveled)
            else acc
          else acc)
        acc).1 = some x → acc.1 = some x ∨ x ∈ es by
    rcases haux (none, -1) h with hc | hm
    · exact absurd hc (by simp)
    · exact hm
  clear h
  induction es with
  | nil => exact fun acc h => Or.inl h
  | cons hd tl ih =>
    intro acc h
    rw [List.foldl_cons] at h
    rcases ih _ h with hc | hm
    · by_cases hr : dist t.x t.y hd.x hd.y ≤ t.range
      · rw [if_pos hr] at hc
        by_cases hm2 : acc.2 < hd.distanceTraveled
        · rw [if_pos hm2] at hc
          simp at hc
          exact Or.inr (by simp [hc])
        · rw [if_neg hm2] at hc
          exact Or.inl hc
      · rw [if_neg hr] at hc
        exact Or.inl hc
    · exact Or.inr (List.mem_cons_of_mem _ hm)

/-- The spawn phase signals wave-complete exactly when the spawn queue and
the enemy list are both empty while a wave composition is loaded. -/
theorem stepSpawnPhase_signal (w : World) :
    (stepSpawnPhase w).2 = true ↔
      (w.enemiesToSpawn = [] ∧ w.enemies = [] ∧
        w.waveComposition.isSome = true) := by
  cases hq : w.enemiesToSpawn with
  | cons g rest =>
    simp only [stepSpawnPhase, hq]
    constructor
    · intro h
      split at h <;> exact Bool.noConfusion h
    · intro hcon
      exact absurd hcon (by simp)
  | nil =>
    simp only [stepSpawnPhase, hq]
    constructor
    · intro h
      split at h
      · rename_i hc
        exact ⟨trivial, hc⟩
      · exact Bool.noConfusion h
    · rintro ⟨-, h2, h3⟩
      rw [if_pos ⟨h2, h3⟩]

/-- Delivering a queued wave-complete callback stops the game: both
`handleWaveComplete` and `handleGameOver` clear `isPlaying`. -/
theorem applyStepEvents_isPlaying (go : Bool) (w : World) :
    (applyStepEvents true go w).gameState.isPlaying = false := by
  cases go <;> simp [applyStepEvents, handleGameOver, handleWaveComplete]

/-- A step that signals wave-complete leaves the game paused. -/
theorem updateWorld_isPlaying_of_wc (w : World) (hg : runGuard w = false)
    (hs : (stepSpawnPhase w).2 = true) :
    (updateWorld w).gameState.isPlaying = false := by
  have hg' : ¬ (runGuard w = true) := by
    rw [hg]
    exact Bool.false_ne_true
  unfold updateWorld
  rw [if_neg hg', hs]
  exact applyStepEvents_isPlaying _ _

/-! ## The claims -/

set_option maxRecDepth 100000 in
/-- C7: starting from a playing state with spawn queue
`[{type: grunt, count: 3, interval: 10, hpMultiplier: 1}]`, spawning at
waypoint 0, with no towers (so nothing is killed) and no leaks possible
within the horizon, after 31 simulation steps exactly 3 enemies have been
created (`nextId` counts every minted entity id, and only these three spawns
mint ids here) and the spawn queue is empty. -/
theorem C7_spawn_scenario :
    ((stepW^[31]) threeGruntWorld).enemies.length = 3 ∧
    ((stepW^[31]) threeGruntWorld).enemiesToSpawn = [] ∧
    ((stepW^[31]) threeGruntWorld).nextId = 3 ∧
    ((stepW^[31]) threeGruntWorld).enemies.map (fun e => e.type) =
      [.grunt, .grunt, .grunt] := by
  decide

/-- C8: for wave number 10 the deterministic fallback generator produces
exactly one boss group, with count 1 and hp multiplier `12`, which is at
least `4 ×` the wave's base difficulty multiplier `1 + 10 × 0.2 = 3`. -/
theorem C8_boss_wave10 :
    ((generateFallbackWave 10).enemies.filter
      (fun g => decide (g.type = EnemyType.BOSS))) =
        [⟨EnemyType.BOSS, 1, 200, ⟨12, 1⟩⟩] ∧
    (4 : ℚ) * (1 + 10 * (1 / 5)) ≤ (⟨12, 1⟩ : Q).val := by
  constructor
  · decide
  · rw [Q.val_intOne]
    norm_num

/-- C9: a simulation step taken while the game is not playing (in particular
with an empty spawn queue and enemy list) is the identity: no game-state
field and no entity store is touched, and no callback fires. -/
theorem C9_idle_identity (w : World) (hq : w.enemiesToSpawn = [])
    (he : w.enemies = []) (hp : w.gameState.isPlaying = false) :
    update w = (w, ⟨false, false⟩) := by
  have hg : runGuard w = true := by
    unfold runGuard
    rw [hp]
    simp
  unfold update updateWorld updateEvents
  rw [if_pos hg, if_pos hg]

/-- C9 witness: the identity step on a concrete idle world. -/
theorem C9_idle_identity_witness :
    update idleWorld = (idleWorld, ⟨false, false⟩) :=
  C9_idle_identity idleWorld rfl rfl rfl

/-- C10: with no usable API credential configured, `generateWave` ignores
its difficulty argument entirely — any two calls with the same wave number
return identical compositions — and always returns the deterministic
fallback (so it cannot throw). -/
theorem C10_offline_determinism (env : Option String)
    (ai : ℕ → Q → Option WaveComposition) (waveNumber : ℕ) (d1 d2 : Q)
    (h : getApiKey env = none) :
    generateWave env ai waveNumber d1 = generateWave env ai waveNumber d2 ∧
    generateWave env ai waveNumber d1 = generateFallbackWave waveNumber := by
  unfold generateWave
  rw [h]
  exact ⟨rfl, rfl⟩

/-- C10 witness: concrete offline calls with two different difficulty
arguments agree and equal the fallback. -/
theorem C10_offline_determinism_witness :
    generateWave none (fun _ _ => none) 3 1 =
      generateWave none (fun _ _ => none) 3 ⟨7, 2⟩ ∧
    generateWave none (fun _ _ => none) 3 1 = generateFallbackWave 3 :=
  C10_offline_determinism none (fun _ _ => none) 3 1 ⟨7, 2⟩ rfl

/-- C1 counterexample: a playing state with one life left in which two
enemies cross the final waypoint in the same simulation step.  The leak
handler decrements lives once per leaking enemy with no clamp, so the step
drives lives from `1` to `-1` — the step does not leave `lives ≥ 0`.
(Game over is triggered in the same step, so the negative value persists.) -/
theorem C1_counterexample :
    twoLeakWorld.gameState.lives = 1 ∧
    ((update twoLeakWorld).1).gameState.lives = -1 ∧
    ((update twoLeakWorld).1).gameState.isGameOver = true := by
  decide

/-- C1 amended: money is never negative and never decreased by a simulation
step (steps only add bounties), and a placement changes money only by
deducting a cost the funds check has admitted; lives, however, are
decremented by exactly the number of enemies that reach the final waypoint
in the step, with no clamp at zero — so `lives ≥ 0` is preserved exactly
when at least `leakCount w` lives remain, and a step with several
simultaneous leaks can leave lives negative (after triggering game over). -/
theorem C1_money_lives_amended (w : World) (hden : 0 < w.gameState.money.den) :
    (w.gameState.money.val ≤ ((update w).1).gameState.money.val ∧
      ((update w).1).gameState.money.den ≠ 0) ∧
    (0 ≤ w.gameState.money.val → 0 ≤ ((update w).1).gameState.money.val) ∧
    (runGuard w = false →
      ((update w).1).gameState.lives = w.gameState.lives - leakCount w) ∧
    (runGuard w = true → (update w).1 = w) ∧
    (∀ sel mx my,
      (handleCanvasClick sel mx my w).1.gameState.lives = w.gameState.lives) ∧
    (∀ sel mx my, 0 ≤ w.gameState.money.val →
      0 ≤ (handleCanvasClick sel mx my w).1.gameState.money.val) ∧
    (∀ sel mx my,
      (handleCanvasClick sel mx my w).1.gameState.money = w.gameState.money ∨
      ∃ t, sel = some t ∧ ¬(w.gameState.money < (TOWER_STATS t).cost) ∧
        (handleCanvasClick sel mx my w).1.gameState.money =
          w.gameState.money - (TOWER_STATS t).cost) := by
  have hmono := updateWorld_money w hden.ne'
  refine ⟨hmono, ?_, ?_, ?_, ?_, ?_, ?_⟩
  · intro h0
    exact h0.trans hmono.1
  · exact updateWorld_lives w
  · exact updateWorld_guard w
  · intro sel mx my
    rcases handleCanvasClick_gameState sel mx my w with h | ⟨t, _, _, h⟩
    · rw [h]
    · rw [h]
  · intro sel mx my h0
    rcases handleCanvasClick_gameState sel mx my w with h | ⟨t, _, hcost, h⟩
    · rw [h]
      exact h0
    · rw [h]
      show 0 ≤ (w.gameState.money - (TOWER_STATS t).cost).val
      rw [Q.val_sub _ _ hden.ne' (cost_den_pos t).ne']
      have hle : (TOWER_STATS t).cost ≤ w.gameState.money := by
        rw [Q.le_def]
        rw [Q.lt_def] at hcost
        exact Int.not_lt.mp hcost
      rw [Q.le_iff_val _ _ (cost_den_pos t) hden] at hle
      exact sub_nonneg.mpr hle
  · intro sel mx my
    rcases handleCanvasClick_gameState sel mx my w with h | ⟨t, hsel, hcost, h⟩
    · exact Or.inl (by rw [h])
    · exact Or.inr ⟨t, hsel, hcost, by rw [h]⟩

/-- C1 witness: the amended facts evaluated on the one-projectile world
(money den `1`, guard passing, no leaks pending). -/
theorem C1_money_lives_amended_witness :
    oneShotWorld.gameState.money.val ≤
      ((update oneShotWorld).1).gameState.money.val ∧
    ((update oneShotWorld).1).gameState.lives =
      oneShotWorld.gameState.lives - leakCount oneShotWorld ∧
    0 ≤ (handleCanvasClick (some TowerType.BLASTER) 300 20
      oneShotWorld).1.gameState.money.val :=
  ⟨(C1_money_lives_amended oneShotWorld (by decide)).1.1,
   (C1_money_lives_amended oneShotWorld (by decide)).2.2.1 (by decide),
   (C1_money_lives_amended oneShotWorld (by decide)).2.2.2.2.2.1
     (some TowerType.BLASTER) 300 20
     (by rw [show oneShotWorld.gameState.money = (⟨0, 1⟩ : Q) from rfl,
           Q.val_intOne]; norm_num)⟩

/-- C2 counterexample: an enemy killed by a projectile during a step is not
removed from the active enemy list in that step at all — it is still in the
list, with `hp ≤ 0`, when the step ends (the dead-enemy filter only runs in
the next frame, before that frame's targeting).  So "removed before tower
targeting reads the list in the same frame" fails for projectile kills. -/
theorem C2_counterexample :
    oneShotWorld.enemies.map (fun e => (e.id, e.hp)) = [(0, ⟨80, 1⟩)] ∧
    ((update oneShotWorld).1).enemies.map (fun e => (e.id, e.hp)) =
      [(0, ⟨-20, 1⟩)] := by
  decide

/-- C2 amended: the dead-enemy filter runs after movement/leak handling and
before tower targeting, so every enemy in the list tower targeting reads
(`stepFilterPhase` output, which is what `runPhases` feeds to
`stepTowersPhase`) has `hp > 0`, and any target it selects has `hp > 0`; an
enemy whose hp drops `≤ 0` during the leak phase is removed before that
frame's targeting, while one killed by projectile damage stays in the list
until the next frame's filter — hence a dead enemy is never targeted in any
later step, but it is not removed within the frame of its death. -/
theorem C2_targeting_amended (w : World) :
    (∀ e ∈ (stepFilterPhase
        (stepMovePhase (stepSpawnPhase w).1).1).enemies, (0 : Q) < e.hp) ∧
    (∀ t x, findTarget t (stepFilterPhase
        (stepMovePhase (stepSpawnPhase w).1).1).enemies = some x →
      (0 : Q) < x.hp) := by
  have hmem : ∀ e ∈ (stepFilterPhase
      (stepMovePhase (stepSpawnPhase w).1).1).enemies, (0 : Q) < e.hp := by
    intro e he
    have := List.mem_filter.mp he
    exact of_decide_eq_true this.2
  exact ⟨hmem, fun t x hx => hmem x (findTarget_mem t _ x hx)⟩

/-- C2 witness: on the one-projectile world the (moved) grunt survives the
filter and is read by targeting with positive hit points. -/
theorem C2_targeting_amended_witness :
    (0 : Q) < gruntOnSegmentMoved.hp :=
  (C2_targeting_amended oneShotWorld).1 gruntOnSegmentMoved (by decide)

/-- C3 counterexample: one grunt (bounty 10) killed by the first of two
railgun shots landing in the same frame.  The dead enemy stays in the list
during the rest of the projectile sweep, the second shot still resolves its
target and damages it again, and the kill check `hp ≤ 0` credits the bounty
a second time: money grows by `2 × 10`, not `10`, for one destroyed
enemy. -/
theorem C3_counterexample :
    doubleHitWorld.gameState.money = 0 ∧
    doubleHitWorld.enemies.length = 1 ∧
    (ENEMY_STATS EnemyType.grunt).bounty = 10 ∧
    ((update doubleHitWorld).1).gameState.money = ⟨20, 1⟩ := by
  decide

/-- C3 amended: `damageEnemy` credits the enemy type's bounty on every
application that leaves the enemy's hit points `≤ 0` — once per such hit,
not once per enemy.  An enemy destroyed by a single impact in a frame is
credited exactly once; further impacts on the still-listed corpse in the
same frame each credit again. -/
theorem C3_bounty_amended (eid : ℕ) (dmg : Q) (w : World) (e : EnemyEntity)
    (he : w.enemies.find? (fun x => decide (x.id = eid)) = some e) :
    (damageEnemy eid dmg w).gameState.money =
      (if e.hp - dmg ≤ 0 then
        w.gameState.money + (ENEMY_STATS e.type).bounty
      else w.gameState.money) := by
  simp only [damageEnemy, he]
  split
  · rw [createParticles_gameState]
  · rfl

/-- C3 witness: the crediting rule evaluated on the one-projectile world. -/
theorem C3_bounty_amended_witness :
    (damageEnemy 0 100 oneShotWorld).gameState.money =
      (if gruntOnSegment.hp - 100 ≤ 0 then
        oneShotWorld.gameState.money + (ENEMY_STATS gruntOnSegment.type).bounty
      else oneShotWorld.gameState.money) :=
  C3_bounty_amended 0 100 oneShotWorld gruntOnSegment (by decide)

/-- C4 counterexample: an enemy entering the step with `frozen = 1` has the
timer decremented to `0` before the speed check, so it moves at its full
speed `1.5` this frame (position `100 → 101.5`, distance-traveled `+1.5`),
not at half speed — a slow of duration `d` therefore halves speed for only
`d - 1` frames. -/
theorem C4_counterexample :
    lastSlowFrameWorld.enemies.map (fun e => e.frozen) = [1] ∧
    (ENEMY_STATS EnemyType.grunt).speed = ⟨3, 2⟩ ∧
    ((update lastSlowFrameWorld).1).enemies.map
      (fun e => (e.x, e.frozen, e.distanceTraveled)) =
        [(⟨203, 2⟩, 0, ⟨3, 2⟩)] := by
  decide

/-- C4 amended: a movement step decrements an active slow timer first and
halves the effective speed only if the decremented timer is still positive:
an enemy moves at half speed this frame iff it entered the frame with
`frozen ≥ 2`, so a slow of duration `d` yields exactly `d - 1` half-speed
frames. -/
theorem C4_slow_amended (e : EnemyEntity) (tn : Vector2D)
    (h : PATH_WAYPOINTS[e.pathIndex + 1]? = some tn) :
    ((moveEnemy e).1.frozen =
      (if 0 < e.frozen then e.frozen - 1 else e.frozen)) ∧
    ((moveEnemy e).1.distanceTraveled = e.distanceTraveled +
      (if 1 < e.frozen then e.speed * ⟨1, 2⟩ else e.speed)) := by
  have hpi : (if 0 < e.frozen then { e with frozen := e.frozen - 1 } else e).pathIndex
      = e.pathIndex := by split <;> rfl
  have hdt : (if 0 < e.frozen then { e with frozen := e.frozen - 1 } else e).distanceTraveled
      = e.distanceTraveled := by split <;> rfl
  constructor
  · show (moveEnemyAux
      (if 0 < e.frozen then { e with frozen := e.frozen - 1 } else e)).1.frozen = _
    rw [moveEnemyAux_frozen]
    split <;> rfl
  · show (moveEnemyAux
      (if 0 < e.frozen then { e with frozen := e.frozen - 1 } else e)).1.distanceTraveled = _
    rw [moveEnemyAux_dt _ tn (by rw [hpi]; exact h), effSpeed_dec, hdt]

/-- C4 witness: the slow rule evaluated on a grunt five frames into a slow,
standing on the first path segment. -/
theorem C4_slow_amended_witness :
    ((moveEnemy { gruntOnSegment with frozen := 5 }).1.frozen =
      (if 0 < ({ gruntOnSegment with frozen := 5 } : EnemyEntity).frozen
        then ({ gruntOnSegment with frozen := 5 } : EnemyEntity).frozen - 1
        else ({ gruntOnSegment with frozen := 5 } : EnemyEntity).frozen)) ∧
    ((moveEnemy { gruntOnSegment with frozen := 5 }).1.distanceTraveled =
      ({ gruntOnSegment with frozen := 5 } : EnemyEntity).distanceTraveled +
      (if 1 < ({ gruntOnSegment with frozen := 5 } : EnemyEntity).frozen
        then ({ gruntOnSegment with frozen := 5 } : EnemyEntity).speed * ⟨1, 2⟩
        else ({ gruntOnSegment with frozen := 5 } : EnemyEntity).speed)) :=
  C4_slow_amended { gruntOnSegment with frozen := 5 } ⟨220, 100⟩ (by decide)

/-- C5: placement is a total function (no exception path); every rejected
click returns the world unchanged; the rejection reasons are evaluated in
the order no-selection, game-over, insufficient funds, occupied cell
(exact snapped-coordinate match), on-path cell (segment bounding boxes
inflated by half a grid cell inside `isOnPath`); a successful placement
deducts exactly the tower's cost and appends one tower at the snapped grid
coordinate with cooldown timer `0`, leaving enemies and projectiles
untouched. -/
theorem C5_placement (sel : Option TowerType) (mx my : Q) (w : World) :
    ((handleCanvasClick sel mx my w).2 ≠ .placed →
      (handleCanvasClick sel mx my w).1 = w) ∧
    (sel = none →
      (handleCanvasClick sel mx my w).2 = .rejectedNoSelection) ∧
    (∀ t, sel = some t →
      (w.gameState.isGameOver = true →
        (handleCanvasClick sel mx my w).2 = .rejectedGameOver) ∧
      (w.gameState.isGameOver = false →
        w.gameState.money < (TOWER_STATS t).cost →
        (handleCanvasClick sel mx my w).2 = .rejectedFunds) ∧
      (w.gameState.isGameOver = false →
        ¬(w.gameState.money < (TOWER_STATS t).cost) →
        w.towers.any (fun tw =>
          decide (tw.x = snapCoord mx ∧ tw.y = snapCoord my)) = true →
        (handleCanvasClick sel mx my w).2 = .rejectedOccupied) ∧
      (w.gameState.isGameOver = false →
        ¬(w.gameState.money < (TOWER_STATS t).cost) →
        w.towers.any (fun tw =>
          decide (tw.x = snapCoord mx ∧ tw.y = snapCoord my)) = false →
        isOnPath (snapCoord mx) (snapCoord my) = true →
        (handleCanvasClick sel mx my w).2 = .rejectedOnPath) ∧
      (w.gameState.isGameOver = false →
        ¬(w.gameState.money < (TOWER_STATS t).cost) →
        w.towers.any (fun tw =>
          decide (tw.x = snapCoord mx ∧ tw.y = snapCoord my)) = false →
        isOnPath (snapCoord mx) (snapCoord my) = false →
        (handleCanvasClick sel mx my w).2 = .placed ∧
        (handleCanvasClick sel mx my w).1.gameState.money =
          w.gameState.money - (TOWER_STATS t).cost ∧
        (handleCanvasClick sel mx my w).1.towers =
          w.towers ++ [placedTower t (snapCoord mx) (snapCoord my) w.nextId] ∧
        (handleCanvasClick sel mx my w).1.enemies = w.enemies ∧
        (handleCanvasClick sel mx my w).1.projectiles = w.projectiles ∧
        (placedTower t (snapCoord mx) (snapCoord my) w.nextId).cooldownTimer
          = 0)) := by
  cases sel with
  | none =>
    exact ⟨fun _ => rfl, fun _ => rfl, fun t ht => Option.noConfusion ht⟩
  | some t =>
    refine ⟨?_, fun h => Option.noConfusion h, fun t' ht' => ?_⟩
    · simp only [handleCanvasClick]
      split_ifs
      · exact fun _ => rfl
      · exact fun _ => rfl
      · exact fun _ => rfl
      · exact fun _ => rfl
      · exact fun hne => absurd rfl hne
    · injection ht' with hte
      subst hte
      simp only [handleCanvasClick]
      split_ifs with h1 h2 h3 h4
      · refine ⟨fun _ => rfl, fun hg _ => ?_, fun hg _ _ => ?_,
          fun hg _ _ _ => ?_, fun hg _ _ _ => ?_⟩ <;>
          (rw [hg] at h1; exact Bool.noConfusion h1)
      · exact ⟨fun hg => absurd hg h1, fun _ _ => rfl,
          fun _ hm _ => absurd h2 hm, fun _ hm _ _ => absurd h2 hm,
          fun _ hm _ _ => absurd h2 hm⟩
      · refine ⟨fun hg => absurd hg h1, fun _ hm => absurd hm h2,
          fun _ _ _ => rfl, fun _ _ ha _ => ?_, fun _ _ ha _ => ?_⟩ <;>
          (rw [ha] at h3; exact Bool.noConfusion h3)
      · refine ⟨fun hg => absurd hg h1, fun _ hm => absurd hm h2,
          fun _ _ ha => absurd ha h3, fun _ _ _ _ => rfl,
          fun _ _ _ hp => ?_⟩
        rw [hp] at h4
        exact Bool.noConfusion h4
      · refine ⟨fun hg => absurd hg h1, fun _ hm => absurd hm h2,
          fun _ _ ha => absurd ha h3, fun _ _ _ hp => absurd hp h4,
          fun _ _ _ _ => ⟨rfl, ?_, ?_, ?_, ?_, rfl⟩⟩
        · rw [createParticles_gameState]
        · rw [createParticles_towers]
        · rw [createParticles_enemies]
        · rw [createParticles_projectiles]

/-- C5 witness: placing a blaster on the fresh board at the (off-path, free)
cell snapped from click `(300, 20)` succeeds, deducting the cost. -/
theorem C5_placement_witness :
    (handleCanvasClick (some TowerType.BLASTER) 300 20 placementWorld).2 =
      PlaceOutcome.placed ∧
    (handleCanvasClick (some TowerType.BLASTER) 300 20
        placementWorld).1.gameState.money =
      placementWorld.gameState.money - (TOWER_STATS TowerType.BLASTER).cost ∧
    (handleCanvasClick (some TowerType.BLASTER) 300 20
        placementWorld).1.towers =
      [placedTower TowerType.BLASTER (snapCoord 300) (snapCoord 20)
        placementWorld.nextId] :=
  have h := ((C5_placement (some TowerType.BLASTER) 300 20
      placementWorld).2.2 TowerType.BLASTER rfl).2.2.2.2
    rfl (by decide) (by decide) (by decide)
  ⟨h.1, h.2.1, h.2.2.1⟩

/-- C6: the step's wave-complete callback fires iff the guard passes (the
game is playing and not over) while the spawn queue and the enemy list are
both empty and a wave composition is loaded; and once it fires, the
delivered callback clears `isPlaying`, so no later step fires it again
until the player starts a new wave — exactly once per wave, never while
either list is non-empty. -/
theorem C6_wave_complete_once (w : World) :
    ((update w).2.waveComplete = true ↔
      (runGuard w = false ∧ w.enemiesToSpawn = [] ∧ w.enemies = [] ∧
        w.waveComposition.isSome = true)) ∧
    ((update w).2.waveComplete = true →
      ∀ n : ℕ, (update ((stepW^[n]) (stepW w))).2.waveComplete = false) := by
  have key : ∀ w' : World, w'.gameState.isPlaying = false →
      (update w').2.waveComplete = false ∧
      (stepW w').gameState.isPlaying = false := by
    intro w' hp
    have hg' : runGuard w' = true := by
      unfold runGuard
      rw [hp]
      simp
    constructor
    · show (updateEvents w').waveComplete = false
      unfold updateEvents
      rw [if_pos hg']
    · show (updateWorld w').gameState.isPlaying = false
      unfold updateWorld
      rw [if_pos hg']
      exact hp
  constructor
  · cases hg : runGuard w with
    | true =>
      have hev : (update w).2.waveComplete = false := by
        show (updateEvents w).waveComplete = false
        unfold updateEvents
        rw [if_pos hg]
      rw [hev]
      constructor
      · intro h
        exact Bool.noConfusion h
      · rintro ⟨h1, -⟩
        exact Bool.noConfusion h1
    | false =>
      have hev : (update w).2.waveComplete = (stepSpawnPhase w).2 := by
        show (updateEvents w).waveComplete = _
        unfold updateEvents
        rw [if_neg (by rw [hg]; exact Bool.false_ne_true)]
      rw [hev, stepSpawnPhase_signal]
      constructor
      · intro h
        exact ⟨rfl, h⟩
      · rintro ⟨-, h⟩
        exact h
  · intro h
    have hg : runGuard w = false := by
      cases hg : runGuard w with
      | true =>
        have hev : (update w).2.waveComplete = false := by
          show (updateEvents w).waveComplete = false
          unfold updateEvents
          rw [if_pos hg]
        rw [hev] at h
        exact Bool.noConfusion h
      | false => rfl
    have hs : (stepSpawnPhase w).2 = true := by
      have hev : (update w).2.waveComplete = (stepSpawnPhase w).2 := by
        show (updateEvents w).waveComplete = _
        unfold updateEvents
        rw [if_neg (by rw [hg]; exact Bool.false_ne_true)]
      rw [hev] at h
      exact h
    have hp1 : (stepW w).gameState.isPlaying = false :=
      updateWorld_isPlaying_of_wc w hg hs
    have inv : ∀ n : ℕ,
        ((stepW^[n]) (stepW w)).gameState.isPlaying = false := by
      intro n
      induction n with
      | zero => exact hp1
      | succ n ih =>
        rw [Function.iterate_succ_apply']
        exact (key _ ih).2
    exact fun n => (key _ (inv n)).1

/-- C6 witness: the cleared-wave world fires the callback on its next step,
and two steps later the callback stays silent. -/
theorem C6_wave_complete_once_witness :
    (update clearedWaveWorld).2.waveComplete = true ∧
    (update ((stepW^[2]) (stepW clearedWaveWorld))).2.waveComplete = false :=
  ⟨(C6_wave_complete_once clearedWaveWorld).1.mpr (by decide),
   (C6_wave_complete_once clearedWaveWorld).2
     ((C6_wave_complete_once clearedWaveWorld).1.mpr (by decide)) 2⟩

end NeonDefense
